import Mathlib

/-!
Verification of the basic-vesting-solana repository.

Shallow embedding conventions used throughout this file:
* machine integers are modelled as `Nat`/`Int` with explicit `% 2 ^ w`
  truncation where the source performs a narrowing or wrapping cast;
* the CLI's `f64` arithmetic is modelled by exact rational arithmetic
  (`Rat`); the float literals `0.1` and `0.9` are modelled by the exact
  rationals they denote, and float-to-integer casts by the saturating
  truncation Rust's `as` performs;
* fallible code returns `Except`; a Solana instruction that returns an
  error leaves every account unchanged (the runtime rolls back all writes
  of a failed instruction), so the error branch of a transition function
  carries no state;
* `Pubkey` values are opaque 32-byte identifiers; outside the byte-level
  codec they are modelled as plain naturals, and the SHA-256-based program
  address derivation (`Pubkey::create_program_address`) enters the model as
  a parameter holding its result (`Option Pubkey`, `none` for derivation
  failure).
-/

set_option allowUnsafeReducibility true in
attribute [semireducible] Rat.mul Rat.add Rat.sub Rat.inv

set_option maxRecDepth 100000

namespace Vesting

/-- Seconds per day (the constant `D` of the CLI). -/
def D : Int := 86400

/-- Seconds per average Gregorian year (the constant `Y` of the CLI). -/
def Y : Int := 31556952

/-- Leap-year predicate from the CLI (`is_leap`): divisible by 4 and
(not divisible by 100, or divisible by 400). -/
def is_leap (year : Int) : Bool :=
  year % 4 == 0 && (year % 100 != 0 || year % 400 == 0)

/-- Civil (proleptic Gregorian) date of a day number counted from
1970-01-01, as `(year, month, day)`. This models the calendar conversion
the CLI obtains from the chrono library (`NaiveDateTime::from_timestamp`
followed by `.month()` / `.year()`), via the standard days-to-civil
algorithm; all intermediate divisions act on non-negative operands. -/
def civilFromDays (z0 : Int) : Int × Int × Int :=
  let z := z0 + 719468
  let era := z.fdiv 146097
  let doe := z - era * 146097
  let yoe := (doe - doe / 1460 + doe / 36524 - doe / 146096) / 365
  let doy := doe - (365 * yoe + yoe / 4 - yoe / 100)
  let mp := (5 * doy + 2) / 153
  let dy := doy - (153 * mp + 2) / 5 + 1
  let m := mp + (if mp < 10 then 3 else -9)
  (yoe + era * 400 + (if m <= 2 then 1 else 0), m, dy)

/-- Day count of a civil month, as matched in `parse_increment`:
31 for 1|3|5|7|8|10|12, 30 for 4|6|9|11, 28/29 for February depending on
`is_leap`. The source's remaining arm is `unreachable!()` (months other
than 1..12 never come out of the date conversion); it is mapped to the
31-day arm here. -/
def month_days (year month : Int) : Int :=
  if month == 2 then (if is_leap year then 29 else 28)
  else if month == 4 || month == 6 || month == 9 || month == 11 then 30
  else 31

/-- Day count of the month containing the date of a unix timestamp
(chrono turns a timestamp into a date by flooring the division by 86400). -/
def days_in_month_at (ts : Int) : Int :=
  month_days (civilFromDays (ts.fdiv 86400)).1 (civilFromDays (ts.fdiv 86400)).2.1

/-- The CLI's `parse_increment`: seconds per day times the day count of
the month of the given timestamp's date. -/
def parse_increment (ts : Int) : Int :=
  D * days_in_month_at ts

/-- Investor group of a tier (`Group` in the CLI). -/
inductive Group where
  | Team
  | Private
deriving DecidableEq

/-- The CLI's `TierInfo`; `release_periods` and `amount` are `f64` in
the source, modelled as exact rationals. -/
structure TierInfo where
  group : Group
  release_periods : Rat
  amount : Rat

/-- Rust's saturating `f64 as u64` / `f64 as usize` cast (64-bit target):
negative values clamp to 0, values at or above `2 ^ 64` clamp to
`2 ^ 64 - 1`, everything else truncates toward zero. -/
def f64_as_u64 (x : Rat) : Nat :=
  if x < 0 then 0 else min (2 ^ 64 - 1) x.floor.toNat

/-- The library helper `spl_token::ui_amount_to_amount`: multiply the display amount by ten to
the mint-decimals power and cast the result to `u64`. -/
def ui_amount_to_amount (x : Rat) (decimals : Nat) : Nat :=
  f64_as_u64 (x * 10 ^ decimals)

/-- The `parse_quantity` closure of `parse_releases`: every release except
the last rounds down; the last release adds the fractional remainder scaled
by `release_periods - (1 + adj)` back onto the unrounded quantity. -/
def parse_quantity (tier : TierInfo) (rp : Nat) (i : Nat) (adj pc : Rat) : Rat :=
  if i < rp - 1 then
    (((tier.amount * pc) / (tier.release_periods - adj)).floor : Rat)
  else
    let qty := (tier.amount * pc) / (tier.release_periods - adj)
    (qty - (qty.floor : Rat)) * (tier.release_periods - (1 + adj)) + qty

/-- Display-unit quantity of release `i` per the investor-class policy in
the loop of `parse_releases`: Team splits the full amount over the periods;
Private unlocks ten percent at release 0 and splits ninety percent over
`release_periods - 1`. -/
def release_quantity_ui (tier : TierInfo) (rp : Nat) (i : Nat) : Rat :=
  if tier.group = Group.Team then
    parse_quantity tier rp i 0 1
  else if i = 0 then
    tier.amount * (1 / 10)
  else
    parse_quantity tier rp i 1 (9 / 10)

/-- Modelled from the spec: one release entry of the vesting state module
(`synchrony_vc::state::VestingInfo`, whose defining file is not under
`src/`): the claimable unix time, stored as a `u32`, and the exact token
quantity in base units, stored as a `u64`. -/
structure VestingInfo where
  timestamp : Nat
  quantity : Nat
deriving DecidableEq

/-- The loop of `parse_releases` with `k` iterations remaining (so the
current index is `rp - k`), running timestamp `ts` and pending increment
`inc`. Each iteration advances the timestamp by the pending increment,
recomputes the increment from the new timestamp's date, and stores the
release with the timestamp truncated to `u32`. -/
def parse_releases_go (tier : TierInfo) (decimals rp : Nat) :
    Nat → Int → Int → List VestingInfo
  | 0, _, _ => []
  | k + 1, ts, inc =>
    let ts' := ts + inc
    { timestamp := (ts' % 2 ^ 32).toNat,
      quantity := ui_amount_to_amount (release_quantity_ui tier rp (rp - (k + 1))) decimals }
      :: parse_releases_go tier decimals rp k ts' (parse_increment ts')

/-- The CLI's `parse_releases`: the schedule of a tier from the parsed
execution-date timestamp `start`. The period count is
`tier.release_periods as usize`; the initial increment is a full year for
Team tiers and zero otherwise. -/
def parse_releases (decimals : Nat) (start : Int) (tier : TierInfo) : List VestingInfo :=
  let rp := f64_as_u64 tier.release_periods
  parse_releases_go tier decimals rp rp start (if tier.group = Group.Team then Y else 0)

/-- Total base-unit quantity of a schedule. -/
def total_quantity (l : List VestingInfo) : Nat :=
  (l.map VestingInfo.quantity).sum

/-- Ledger addresses, opaque outside the byte-level codec. -/
abbrev Pubkey := Nat

/-- Program-error values surfaced by the processor
(`solana_program::program_error::ProgramError`, the variants this code
produces, plus custom program-specific codes). -/
inductive ProgramError where
  | InvalidArgument
  | InvalidInstructionData
  | InvalidAccountData
  | InsufficientFunds
  | IncorrectProgramId
  | InvalidSeeds
  | UninitializedAccount
  | Custom (code : Nat)
deriving DecidableEq

/-- The vesting error enum (`programs/programs/vesting/src/error.rs`), in
declaration order. -/
inductive ErrorCode where
  | InvalidInstruction
  | InvalidTimestamp
  | InvalidPeriod
  | InvalidDepositAmount
  | InvalidProgramAddress
  | InvalidVaultOwner
  | InvalidVaultAmount
  | InsufficientWithdrawalBalance
  | WhitelistFull
  | WhitelistEntryAlreadyExists
  | Unauthorized
  | UnableToWithdrawWhileStaked
  | UnrealizedVesting
  | InvalidSchedule
deriving DecidableEq

/-- Discriminant of an `ErrorCode` (its `as u32` value). -/
def ErrorCode.discriminant : ErrorCode → Nat
  | .InvalidInstruction => 0
  | .InvalidTimestamp => 1
  | .InvalidPeriod => 2
  | .InvalidDepositAmount => 3
  | .InvalidProgramAddress => 4
  | .InvalidVaultOwner => 5
  | .InvalidVaultAmount => 6
  | .InsufficientWithdrawalBalance => 7
  | .WhitelistFull => 8
  | .WhitelistEntryAlreadyExists => 9
  | .Unauthorized => 10
  | .UnableToWithdrawWhileStaked => 11
  | .UnrealizedVesting => 12
  | .InvalidSchedule => 13

/-- Conversion `From<ErrorCode> for ProgramError`: `ProgramError::Custom(e as u32)`. -/
def ErrorCode.toProgramError (e : ErrorCode) : ProgramError :=
  .Custom e.discriminant

/-- The fields of an SPL token account that the processor inspects after
`Account::unpack`. -/
structure TokenAccount where
  owner : Pubkey
  amount : Nat
  delegate : Option Pubkey
  close_authority : Option Pubkey
deriving DecidableEq

/-- Modelled from the spec: the vesting account header
(`synchrony_vc::state::VestingHeader`, whose defining file is not under
`src/`): initialization flag, asset mint, and the entitled recipient (the
processor's name for the spec's beneficiary). Per the spec layout it is
stored at the start of the account data with `is_initialized` at byte 0. -/
structure VestingHeader where
  is_initialized : Bool
  mint : Pubkey
  recipient : Pubkey
deriving DecidableEq

/-- A vesting account's decoded data: the header followed by the release
array. -/
structure VestingData where
  header : VestingHeader
  releases : List VestingInfo
deriving DecidableEq

/-- The SPL token program id, an opaque constant of the model
(`spl_token::id()`). -/
def spl_token_id : Pubkey := 1

/-- The overflow-checked accumulation of release quantities in
`process_create_vesting` (`u64::checked_add`); `none` models the
`InvalidInstructionData` abort on overflow. -/
def checked_total (l : List VestingInfo) : Option Nat :=
  l.foldlM (fun acc r => if acc + r.quantity < 2 ^ 64 then some (acc + r.quantity) else none) 0

/-- The account set received by `process_create_vesting`, together with the
pre-derived program address for the seed (`Pubkey::create_program_address`
is an opaque SHA-256 derivation; its result enters the model as a
parameter, `none` for derivation failure, which the source propagates as an
error). -/
structure CreateCtx where
  program_id : Pubkey
  pda : Option Pubkey
  authority_is_signer : Bool
  token_account : TokenAccount
  vesting_key : Pubkey
  vesting_owner : Pubkey
  vesting_data : VestingData
  vault : TokenAccount

/-- The processor's `process_create_vesting` as a state transition. A successful call
returns the new vesting account data and the amount transferred from the
funding token account into the vault; an error leaves every account
unchanged (the runtime rolls back the header/release bytes that the source
writes before the funds check). The `is_initialized` test reads byte 0 of
the account data, which per the spec layout is the header flag. -/
def process_create_vesting (ctx : CreateCtx) (mint recipient : Pubkey)
    (releases : List VestingInfo) : Except ProgramError (VestingData × Nat) :=
  if !ctx.authority_is_signer then .error .InvalidArgument
  else match ctx.pda with
  | none => .error .InvalidSeeds
  | some pda =>
    if pda ≠ ctx.vesting_key then .error .InvalidArgument
    else if ctx.vesting_owner ≠ ctx.program_id then .error .InvalidArgument
    else if ctx.vesting_data.header.is_initialized then .error .InvalidArgument
    else if ctx.vault.owner ≠ pda then .error .InvalidArgument
    else if ctx.vault.delegate.isSome then .error .InvalidArgument
    else if ctx.vault.close_authority.isSome then .error .InvalidArgument
    else match checked_total releases with
    | none => .error .InvalidInstructionData
    | some total =>
      if ctx.token_account.amount < total then .error .InsufficientFunds
      else .ok ({ header := { is_initialized := true, mint := mint, recipient := recipient },
                  releases := releases }, total)

/-- The eligibility pass of `process_unlock_tokens`: with the clock
truncated to `u32` being `c`, zero the quantity of every release whose
timestamp has elapsed, and accumulate the zeroed quantities. -/
def unlock_releases (c : Nat) : List VestingInfo → List VestingInfo × Nat
  | [] => ([], 0)
  | r :: rs =>
    let rest := unlock_releases c rs
    if r.timestamp ≤ c then ({ r with quantity := 0 } :: rest.1, r.quantity + rest.2)
    else (r :: rest.1, rest.2)

/-- The account set received by `process_unlock_tokens`, with the
pre-derived program address as in `CreateCtx` and the ledger clock's
`unix_timestamp` (an `i64`). -/
structure UnlockCtx where
  program_id : Pubkey
  pda : Option Pubkey
  vesting_key : Pubkey
  vesting_owner : Pubkey
  vesting_data : VestingData
  vault : TokenAccount
  recipient_key : Pubkey
  spl_token_program : Pubkey
  clock : Int

/-- The processor's `process_unlock_tokens` as a state transition. A successful call
returns the rewritten vesting data (eligible quantities zeroed, header and
timestamps intact) and the amount transferred from the vault to the
recipient; an error leaves every account unchanged. The clock enters the
eligibility comparison as `clock.unix_timestamp as u32`, a wrapping cast.
Modelled from the spec: the asset-transfer primitive invoked after the
eligibility pass fails when the vault balance is below the transfer amount,
aborting the instruction. -/
def process_unlock_tokens (ctx : UnlockCtx) : Except ProgramError (VestingData × Nat) :=
  match ctx.pda with
  | none => .error .InvalidSeeds
  | some pda =>
    if pda ≠ ctx.vesting_key then .error .InvalidArgument
    else if ctx.vesting_owner ≠ ctx.program_id then .error .InvalidArgument
    else if ctx.spl_token_program ≠ spl_token_id then .error .IncorrectProgramId
    else if ctx.vesting_data.header.recipient ≠ ctx.recipient_key then .error .InvalidArgument
    else if ctx.vault.owner ≠ pda then .error .InvalidArgument
    else if (unlock_releases ((ctx.clock % 2 ^ 32).toNat) ctx.vesting_data.releases).2 = 0 then
      .error .InvalidArgument
    else if ctx.vault.amount
        < (unlock_releases ((ctx.clock % 2 ^ 32).toNat) ctx.vesting_data.releases).2 then
      .error .InsufficientFunds
    else
      .ok ({ header := ctx.vesting_data.header,
             releases := (unlock_releases ((ctx.clock % 2 ^ 32).toNat)
               ctx.vesting_data.releases).1 },
           (unlock_releases ((ctx.clock % 2 ^ 32).toNat) ctx.vesting_data.releases).2)

/-- Modelled from the spec: `process_init` allocates a fresh, rent-funded,
zero-filled account of size `header_len + release_count * release_len` at
the derived address (the underlying `create_account` fails when the account
already exists, so Init never touches existing state). Decoding a
zero-filled account yields an uninitialized header and `release_count`
zeroed release slots. -/
def init_vesting_data (release_count : Nat) : VestingData :=
  { header := { is_initialized := false, mint := 0, recipient := 0 },
    releases := List.replicate release_count { timestamp := 0, quantity := 0 } }

/-- Byte strings for the fixed-layout state codec. -/
abbrev Bytes := List Nat

/-- Little-endian `u64::to_le_bytes`. -/
def u64_le (n : Nat) : Bytes :=
  (List.range 8).map (fun i => n / 256 ^ i % 256)

/-- Little-endian `u64::from_le_bytes`. -/
def le_to_u64 (l : Bytes) : Nat :=
  l.foldr (fun b acc => b + 256 * acc) 0

/-- Rust's `dst[a..b].copy_from_slice(src)`: panics (`none`) unless
`a ≤ b ≤ dst.len()` and the two ranges have equal length; on success
replaces that range of `dst`. -/
def copy_from_slice (dst : Bytes) (a b : Nat) (src : Bytes) : Option Bytes :=
  if a ≤ b ∧ b ≤ dst.length ∧ b - a = src.length then
    some (dst.take a ++ src ++ dst.drop b)
  else none

/-- Rust's slice read `src[a..b]` followed by `.try_into().unwrap()` into a
`w`-byte array: panics (`none`) unless `a ≤ b ≤ src.len()` and the slice is
exactly `w` bytes wide. -/
def take_exact (src : Bytes) (a b w : Nat) : Option Bytes :=
  if a ≤ b ∧ b ≤ src.length ∧ b - a = w then some ((src.drop a).take (b - a))
  else none

/-- The record `MetadataState` (`programs/programs/vesting-metadata/src/state.rs`);
the two `Pubkey` fields are kept as their 32 raw bytes for the codec. -/
structure MetadataState where
  is_initialized : Bool
  authority : Bytes
  vault : Bytes
  duration : Nat
  apr : Nat
  withdrawal_timelock : Nat
  early_withdrawal_fee : Nat
  lifetime : Nat
deriving DecidableEq

/-- The declared record width of `MetadataState` (`Pack::LEN = 111` in the
source; the cumulative field offsets end at 105). -/
def metaLEN : Nat := 111

/-- Outcome of running codec code: a `ProgramError`, or a Rust panic
(out-of-range index, failed `unwrap`, or an `unreachable!()` arm). -/
inductive MetaErr where
  | programError (e : ProgramError)
  | panicked
deriving DecidableEq

/-- Lift a panicking (`Option`) step into the codec outcome monad. -/
def panicking {α : Type} : Option α → Except MetaErr α
  | some a => .ok a
  | none => .error .panicked

/-- Encoding, `MetadataState::pack_into_slice`: byte 0 is the flag, then sequential
fixed-offset `copy_from_slice` writes; the final field is written to
`dst[LIFE..]`, i.e. from offset 97 to the end of the buffer. -/
def meta_pack_into_slice (s : MetadataState) (dst : Bytes) : Option Bytes := do
  let d0 ← if 0 < dst.length then some (dst.set 0 (if s.is_initialized then 1 else 0)) else none
  let d1 ← copy_from_slice d0 1 33 s.authority
  let d2 ← copy_from_slice d1 33 65 s.vault
  let d3 ← copy_from_slice d2 65 73 (u64_le s.duration)
  let d4 ← copy_from_slice d3 73 81 (u64_le s.apr)
  let d5 ← copy_from_slice d4 81 89 (u64_le s.withdrawal_timelock)
  let d6 ← copy_from_slice d5 89 97 (u64_le s.early_withdrawal_fee)
  copy_from_slice d6 97 d6.length (u64_le s.lifetime)

/-- The field reads of `MetadataState::unpack_from_slice` after the flag
byte: each field is read from its fixed range with `try_into().unwrap()`
(any failure is a panic); the final field reads `src[LIFE..]`, i.e. from
offset 97 to the end of the buffer. -/
def meta_unpack_fields (src : Bytes) (ii : Bool) : Except MetaErr MetadataState :=
  match take_exact src 1 33 32, take_exact src 33 65 32, take_exact src 65 73 8,
      take_exact src 73 81 8, take_exact src 81 89 8, take_exact src 89 97 8,
      take_exact src 97 src.length 8 with
  | some auth, some vault, some dura, some apr, some wtl, some fee, some life =>
    .ok { is_initialized := ii, authority := auth, vault := vault,
          duration := le_to_u64 dura, apr := le_to_u64 apr,
          withdrawal_timelock := le_to_u64 wtl, early_withdrawal_fee := le_to_u64 fee,
          lifetime := le_to_u64 life }
  | _, _, _, _, _, _, _ => .error .panicked

/-- Decoding, `MetadataState::unpack_from_slice`: the `is_initialized` byte is
matched first (`0`, `1`, or the `unreachable!()` arm, a panic; an empty
input panics on the index), then the fields are read. -/
def meta_unpack_from_slice (src : Bytes) : Except MetaErr MetadataState :=
  match src.head? with
  | none => .error .panicked
  | some b0 =>
    match b0 with
    | 0 => meta_unpack_fields src false
    | 1 => meta_unpack_fields src true
    | _ => .error .panicked

/-- The checked `Pack::pack` (from `solana_program::program_pack`, the trait the state
implements): the destination length must equal `LEN`, else
`InvalidAccountData`; then `pack_into_slice` runs and may panic. -/
def meta_pack (s : MetadataState) (dst : Bytes) : Except MetaErr Bytes :=
  if dst.length ≠ metaLEN then .error (.programError .InvalidAccountData)
  else match meta_pack_into_slice s dst with
    | some d => .ok d
    | none => .error .panicked

/-- The checked `Pack::unpack_unchecked`: the source length must equal `LEN`, else
`InvalidAccountData`; then `unpack_from_slice` runs. -/
def meta_unpack_unchecked (src : Bytes) : Except MetaErr MetadataState :=
  if src.length ≠ metaLEN then .error (.programError .InvalidAccountData)
  else meta_unpack_from_slice src

/-- The checked `Pack::unpack`: `unpack_unchecked`, then the decoded record must be
initialized, else `UninitializedAccount`. -/
def meta_unpack (src : Bytes) : Except MetaErr MetadataState :=
  match meta_unpack_unchecked src with
  | .ok s => if s.is_initialized then .ok s else .error (.programError .UninitializedAccount)
  | .error e => .error e

/-- Shape of the eligibility pass: eligible releases are zeroed in place
(timestamps intact), and the accumulated total is the sum of the zeroed
quantities. -/
theorem unlock_releases_spec (c : Nat) (l : List VestingInfo) :
    unlock_releases c l
      = (l.map (fun r => if r.timestamp ≤ c then { r with quantity := 0 } else r),
         (l.map (fun r => if r.timestamp ≤ c then r.quantity else 0)).sum) := by
  induction l with
  | nil => rfl
  | cons r rs ih =>
    simp only [unlock_releases, ih, List.map_cons, List.sum_cons]
    split <;> simp

/-- After an eligibility pass at truncated clock `c1`, a second pass at any
truncated clock `c2 ≤ c1` accumulates nothing. -/
theorem unlock_releases_again (c1 c2 : Nat) (h : c2 ≤ c1) (l : List VestingInfo) :
    (unlock_releases c2 (unlock_releases c1 l).1).2 = 0 := by
  simp only [unlock_releases_spec, List.map_map]
  apply List.sum_eq_zero
  intro x hx
  rw [List.mem_map] at hx
  obtain ⟨r, hr, rfl⟩ := hx
  simp only [Function.comp_apply]
  by_cases h1 : r.timestamp ≤ c1
  · rw [if_pos h1]
    simp
  · rw [if_neg h1, if_neg (fun hc => h1 (le_trans hc h))]

/-- Claim C5: Create fails with InsufficientFunds whenever the funding
token account's balance is below the (overflow-checked) sum of the declared
release quantities; the failed instruction returns an error and therefore
transfers nothing and leaves the vesting account's header and release slots
as they were (the runtime discards the draft writes of a failed
instruction). -/
theorem C5_create_insufficient_funds (ctx : CreateCtx) (mint recipient : Pubkey)
    (releases : List VestingInfo) (total : Nat)
    (hsig : ctx.authority_is_signer = true)
    (hpda : ctx.pda = some ctx.vesting_key)
    (hown : ctx.vesting_owner = ctx.program_id)
    (hinit : ctx.vesting_data.header.is_initialized = false)
    (hvown : ctx.vault.owner = ctx.vesting_key)
    (hdel : ctx.vault.delegate = none)
    (hclose : ctx.vault.close_authority = none)
    (htot : checked_total releases = some total)
    (hlt : ctx.token_account.amount < total) :
    process_create_vesting ctx mint recipient releases
      = .error ProgramError.InsufficientFunds := by
  simp [process_create_vesting, hsig, hpda, hown, hinit, hvown, hdel, hclose, htot, hlt]

/-- Witness for C5: a funding account holding 5 base units cannot back a
schedule totalling 6. -/
theorem C5_witness :
    (5 : Nat) < 6
    ∧ process_create_vesting
        { program_id := 7, pda := some 2, authority_is_signer := true,
          token_account := ⟨9, 5, none, none⟩, vesting_key := 2, vesting_owner := 7,
          vesting_data := ⟨⟨false, 3, 4⟩, []⟩, vault := ⟨2, 0, none, none⟩ }
        3 4 [⟨100, 6⟩] = .error ProgramError.InsufficientFunds :=
  ⟨by decide,
   C5_create_insufficient_funds _ 3 4 [⟨100, 6⟩] 6 rfl rfl rfl rfl rfl rfl rfl (by decide)
     (by decide)⟩

/-- Claim C7 (amended): a Create whose vault is not owned by the derived
vesting address, or whose vault has a delegate, or a close authority, is
rejected before any transfer (the error return carries no state change);
all three rejections surface ProgramError::InvalidArgument — the
InvalidVaultOwner / InvalidVaultAmount codes of the error enum are not what
this processor returns. -/
theorem C7_vault_checks (ctx : CreateCtx) (mint recipient : Pubkey)
    (releases : List VestingInfo)
    (hsig : ctx.authority_is_signer = true)
    (hpda : ctx.pda = some ctx.vesting_key)
    (hown : ctx.vesting_owner = ctx.program_id)
    (hinit : ctx.vesting_data.header.is_initialized = false) :
    (ctx.vault.owner ≠ ctx.vesting_key →
      process_create_vesting ctx mint recipient releases
        = .error ProgramError.InvalidArgument)
    ∧ (ctx.vault.owner = ctx.vesting_key → ctx.vault.delegate.isSome →
      process_create_vesting ctx mint recipient releases
        = .error ProgramError.InvalidArgument)
    ∧ (ctx.vault.owner = ctx.vesting_key → ctx.vault.delegate = none →
        ctx.vault.close_authority.isSome →
      process_create_vesting ctx mint recipient releases
        = .error ProgramError.InvalidArgument) := by
  refine ⟨fun h => ?_, fun h1 h2 => ?_, fun h1 h2 h3 => ?_⟩ <;>
    simp_all [process_create_vesting]

/-- Counterexample for C7 as stated: a vault owned by key 5 instead of the
derived address 2 makes Create fail with ProgramError::InvalidArgument,
which is not the InvalidVaultOwner error code the claim names. -/
theorem C7_counterexample :
    process_create_vesting
      { program_id := 7, pda := some 2, authority_is_signer := true,
        token_account := ⟨9, 50, none, none⟩, vesting_key := 2, vesting_owner := 7,
        vesting_data := ⟨⟨false, 3, 4⟩, []⟩, vault := ⟨5, 0, none, none⟩ }
      3 4 [] = .error ProgramError.InvalidArgument
    ∧ ProgramError.InvalidArgument ≠ ErrorCode.InvalidVaultOwner.toProgramError :=
  ⟨by rfl, by decide⟩

/-- Witness for C7 (amended) at concrete inputs: all three degenerate vault
configurations are rejected with InvalidArgument. -/
theorem C7_witness :
    process_create_vesting
      { program_id := 7, pda := some 2, authority_is_signer := true,
        token_account := ⟨9, 50, none, none⟩, vesting_key := 2, vesting_owner := 7,
        vesting_data := ⟨⟨false, 3, 4⟩, []⟩, vault := ⟨2, 0, some 8, none⟩ }
      3 4 [] = .error ProgramError.InvalidArgument :=
  (C7_vault_checks
      { program_id := 7, pda := some 2, authority_is_signer := true,
        token_account := ⟨9, 50, none, none⟩, vesting_key := 2, vesting_owner := 7,
        vesting_data := ⟨⟨false, 3, 4⟩, []⟩, vault := ⟨2, 0, some 8, none⟩ }
      3 4 [] rfl rfl rfl rfl).2.1 rfl rfl

/-- Claim C9: the header flag is monotone. Create on an account whose
initialization byte is set fails with no state change; a successful Create
sets the flag; a successful Unlock preserves the header verbatim; Init
produces an uninitialized account. Together: no reachable operation resets
the flag from true to false. -/
theorem C9_is_initialized_monotone :
    (∀ (ctx : CreateCtx) (mint recipient : Pubkey) (releases : List VestingInfo),
        ctx.authority_is_signer = true → ctx.pda = some ctx.vesting_key →
        ctx.vesting_owner = ctx.program_id →
        ctx.vesting_data.header.is_initialized = true →
        process_create_vesting ctx mint recipient releases
          = .error ProgramError.InvalidArgument)
    ∧ (∀ (ctx : CreateCtx) (mint recipient : Pubkey) (releases : List VestingInfo)
        (st : VestingData) (amt : Nat),
        process_create_vesting ctx mint recipient releases = .ok (st, amt) →
        st.header.is_initialized = true)
    ∧ (∀ (ctx : UnlockCtx) (st : VestingData) (amt : Nat),
        process_unlock_tokens ctx = .ok (st, amt) →
        st.header = ctx.vesting_data.header)
    ∧ (∀ n, (init_vesting_data n).header.is_initialized = false) := by
  refine ⟨?_, ?_, ?_, fun n => rfl⟩
  · intro ctx mint recipient releases hsig hpda hown hinit
    simp [process_create_vesting, hsig, hpda, hown, hinit]
  · intro ctx mint recipient releases st amt h
    unfold process_create_vesting at h
    repeat' split at h
    all_goals simp_all
    all_goals
      obtain ⟨h1, h2⟩ := h
      subst h1
      rfl
  · intro ctx st amt h
    unfold process_unlock_tokens at h
    repeat' split at h
    all_goals simp_all
    all_goals
      obtain ⟨h1, h2⟩ := h
      subst h1
      rfl

/-- Witness for C9: a Create on an already-initialized account is rejected,
and a fresh Init account is uninitialized. -/
theorem C9_witness :
    process_create_vesting
      { program_id := 7, pda := some 2, authority_is_signer := true,
        token_account := ⟨9, 50, none, none⟩, vesting_key := 2, vesting_owner := 7,
        vesting_data := ⟨⟨true, 3, 4⟩, []⟩, vault := ⟨2, 0, none, none⟩ }
      3 4 [] = .error ProgramError.InvalidArgument
    ∧ (init_vesting_data 2).header.is_initialized = false :=
  ⟨C9_is_initialized_monotone.1 _ 3 4 [] rfl rfl rfl rfl,
   C9_is_initialized_monotone.2.2.2 2⟩

/-- Claim C10: an Unlock whose supplied recipient account differs from the
recipient recorded in the vesting header fails with InvalidArgument before
the eligibility pass and the transfer, and the error return carries no
state change. -/
theorem C10_unlock_wrong_recipient (ctx : UnlockCtx)
    (hpda : ctx.pda = some ctx.vesting_key)
    (hown : ctx.vesting_owner = ctx.program_id)
    (hspl : ctx.spl_token_program = spl_token_id)
    (hrec : ctx.vesting_data.header.recipient ≠ ctx.recipient_key) :
    process_unlock_tokens ctx = .error ProgramError.InvalidArgument := by
  simp [process_unlock_tokens, hpda, hown, hspl, hrec]

/-- Everything a successful Unlock guarantees: the account checks passed
and the new state zeroes exactly the elapsed releases, keeping the header. -/
theorem unlock_ok_inv (ctx : UnlockCtx) (st : VestingData) (amt : Nat)
    (h : process_unlock_tokens ctx = .ok (st, amt)) :
    ctx.pda = some ctx.vesting_key
    ∧ ctx.vesting_owner = ctx.program_id
    ∧ ctx.spl_token_program = spl_token_id
    ∧ ctx.vesting_data.header.recipient = ctx.recipient_key
    ∧ ctx.vault.owner = ctx.vesting_key
    ∧ st = { header := ctx.vesting_data.header,
             releases := (unlock_releases ((ctx.clock % 2 ^ 32).toNat)
               ctx.vesting_data.releases).1 } := by
  unfold process_unlock_tokens at h
  repeat' split at h
  all_goals simp_all

/-- Claim C3 (amended): if an Unlock succeeds, a second Unlock on the
resulting state whose u32-truncated clock does not exceed the first call's
truncated clock — in particular, the very same clock — fails with the
no-eligible-release rejection (ProgramError::InvalidArgument, message
"No vesting periods have elapsed"), and the error return changes no release
quantity. The truncation caveat is forced by the source: the clock enters
the comparison as `unix_timestamp as u32`, so an earlier i64 clock need not
truncate to a smaller u32 value. -/
theorem C3_unlock_second_call_fails (ctx : UnlockCtx) (st : VestingData) (amt : Nat)
    (clock2 : Int)
    (h1 : process_unlock_tokens ctx = .ok (st, amt))
    (hc : (clock2 % 2 ^ 32).toNat ≤ (ctx.clock % 2 ^ 32).toNat) :
    process_unlock_tokens
      { ctx with
        vesting_data := st,
        clock := clock2,
        vault := { ctx.vault with amount := ctx.vault.amount - amt } }
      = .error ProgramError.InvalidArgument := by
  obtain ⟨hpda, hown, hspl, hrec, hvown, hst⟩ := unlock_ok_inv ctx st amt h1
  subst hst
  have hz : (unlock_releases ((clock2 % (4294967296 : Int)).toNat)
      ((unlock_releases ((ctx.clock % (4294967296 : Int)).toNat)
        ctx.vesting_data.releases).1)).2 = 0 :=
    unlock_releases_again ((ctx.clock % 2 ^ 32).toNat)
      ((clock2 % 2 ^ 32).toNat) hc ctx.vesting_data.releases
  simp [process_unlock_tokens, hpda, hown, hspl, hrec, hvown, hz]

/-- A first-Unlock scenario shared by the C3 counterexample and witness:
two releases, at times 0 (1 token) and 10 (5 tokens), clock 5. -/
def c3_first : UnlockCtx :=
  { program_id := 7, pda := some 2, vesting_key := 2, vesting_owner := 7,
    vesting_data := ⟨⟨true, 3, 4⟩, [⟨0, 1⟩, ⟨10, 5⟩]⟩, vault := ⟨2, 100, none, none⟩,
    recipient_key := 4, spl_token_program := spl_token_id, clock := 5 }

/-- Counterexample for C3 as stated: the first Unlock at clock 5 succeeds
(transfers 1, zeroing the elapsed release); a second Unlock on the
resulting state at the not-later clock -1 does not fail — its u32
truncation is 4294967295, which makes the unelapsed 5-token release
eligible, so the call succeeds and transfers 5. -/
theorem C3_counterexample :
    process_unlock_tokens c3_first = .ok (⟨⟨true, 3, 4⟩, [⟨0, 0⟩, ⟨10, 5⟩]⟩, 1)
    ∧ (-1 : Int) ≤ c3_first.clock
    ∧ process_unlock_tokens
        { c3_first with
          vesting_data := ⟨⟨true, 3, 4⟩, [⟨0, 0⟩, ⟨10, 5⟩]⟩,
          vault := ⟨2, 99, none, none⟩,
          clock := -1 }
        = .ok (⟨⟨true, 3, 4⟩, [⟨0, 0⟩, ⟨10, 0⟩]⟩, 5) :=
  ⟨by rfl, by decide, by rfl⟩

/-- Witness for C3 (amended): repeating the Unlock of `c3_first` at the
same clock fails with InvalidArgument. -/
theorem C3_witness :
    process_unlock_tokens c3_first = .ok (⟨⟨true, 3, 4⟩, [⟨0, 0⟩, ⟨10, 5⟩]⟩, 1)
    ∧ process_unlock_tokens
        { c3_first with
          vesting_data := (⟨⟨true, 3, 4⟩, [⟨0, 0⟩, ⟨10, 5⟩]⟩ : VestingData),
          clock := (5 : Int),
          vault := { c3_first.vault with amount := c3_first.vault.amount - 1 } }
        = .error ProgramError.InvalidArgument :=
  ⟨by rfl,
   C3_unlock_second_call_fails c3_first ⟨⟨true, 3, 4⟩, [⟨0, 0⟩, ⟨10, 5⟩]⟩ 1 5 (by rfl)
     (by decide)⟩

/-- Claim C2 (code bug): evaluating the metadata codec at a failing input.
Packing any `MetadataState` through the checked `Pack::pack` entrypoint
panics: the declared `LEN = 111` disagrees with the 105-byte cumulative
field layout, so the final 8-byte field write targets a 14-byte range and
`copy_from_slice` aborts. At the native 105-byte width the slice-level
encode/decode pair does round-trip the record, showing the claim's law is
the intent and the `LEN` constant the slip. (The sibling `VestingState`
impl cited by the claim does not even parse as Rust: its `unpack_from_slice`
drops the `start_balance` and `period_count` fields it just read past.) -/
theorem C2_metadata_pack_panics :
    meta_pack ⟨true, List.replicate 32 7, List.replicate 32 9, 1, 2, 3, 4, 5⟩
        (List.replicate 111 0) = .error .panicked
    ∧ (meta_pack_into_slice ⟨true, List.replicate 32 7, List.replicate 32 9, 1, 2, 3, 4, 5⟩
        (List.replicate 105 0)).map meta_unpack_from_slice
      = some (.ok ⟨true, List.replicate 32 7, List.replicate 32 9, 1, 2, 3, 4, 5⟩) :=
  ⟨by rfl, by rfl⟩

/-- Claim C6 (amended): the checked unpack rejects any input whose length
differs from the declared record width with a decode error
(InvalidAccountData) — in particular every shorter input; but a full-width
input whose is_initialized byte is outside 0 and 1 drives
`unpack_from_slice` into the `unreachable!()` arm, a panic rather than a
decode error. -/
theorem C6_unpack_totality (src : Bytes) :
    (src.length ≠ metaLEN →
      meta_unpack src = .error (.programError .InvalidAccountData))
    ∧ (∀ b rest, src = b :: rest → src.length = metaLEN → b ≠ 0 → b ≠ 1 →
      meta_unpack src = .error .panicked) := by
  constructor
  · intro h
    simp [meta_unpack, meta_unpack_unchecked, h]
  · rintro b rest rfl hlen h0 h1
    rcases b with _ | _ | k
    · exact absurd rfl h0
    · exact absurd rfl h1
    · simp [meta_unpack, meta_unpack_unchecked, meta_unpack_from_slice, hlen]

/-- Counterexample for C6 as stated: a 111-byte input whose first byte is 2
makes unpack panic instead of returning a decode error. -/
theorem C6_counterexample :
    meta_unpack (2 :: List.replicate 110 0) = .error .panicked
    ∧ meta_unpack (2 :: List.replicate 110 0)
        ≠ .error (.programError .InvalidAccountData) := by
  refine ⟨by rfl, ?_⟩
  rw [show meta_unpack (2 :: List.replicate 110 0) = Except.error MetaErr.panicked from rfl]
  simp

/-- Witness for C6 (amended): a 110-byte input is rejected with the decode
error, and the 111-byte input starting with byte 2 panics. -/
theorem C6_witness :
    (List.replicate 110 0 : Bytes).length ≠ metaLEN
    ∧ meta_unpack (List.replicate 110 0) = .error (.programError .InvalidAccountData)
    ∧ meta_unpack (2 :: List.replicate 110 0) = .error .panicked :=
  ⟨by decide,
   (C6_unpack_totality (List.replicate 110 0)).1 (by decide),
   (C6_unpack_totality (2 :: List.replicate 110 0)).2 2 (List.replicate 110 0) rfl (by decide)
     (by decide) (by decide)⟩

/-- Every calendar-month increment lies between 28 and 31 days of
seconds. -/
theorem parse_increment_bounds (ts : Int) :
    28 * 86400 ≤ parse_increment ts ∧ parse_increment ts ≤ 31 * 86400 := by
  unfold parse_increment days_in_month_at month_days D
  split_ifs <;> norm_num

/-- Head of the schedule loop: the first stored timestamp is the running
timestamp plus the pending increment, provided it fits in a `u32`. -/
theorem parse_releases_go_head (tier : TierInfo) (decimals rp k : Nat) (ts inc : Int)
    (hk : k ≠ 0) (h0 : 0 ≤ ts + inc) (hlt : ts + inc < 2 ^ 32) :
    ((parse_releases_go tier decimals rp k ts inc).head?.map fun e => (e.timestamp : Int))
      = some (ts + inc) := by
  cases k with
  | zero => exact absurd rfl hk
  | succ n =>
    rw [parse_releases_go]
    simp only [List.head?_cons, Option.map_some']
    congr 1
    rw [Int.emod_eq_of_lt h0 hlt]
    exact Int.toNat_of_nonneg h0

/-- The schedule loop's consecutive stored timestamps differ by exactly the
calendar-month increment of the previous timestamp, as long as all raw
timestamps stay inside the `u32` range. -/
theorem parse_releases_go_chain (tier : TierInfo) (decimals rp : Nat) :
    ∀ (k : Nat) (ts inc : Int), 0 ≤ ts → 0 ≤ inc →
      ts + inc + (k : Int) * (31 * 86400) < 2 ^ 32 + 31 * 86400 →
      List.Chain' (fun a b => (b.timestamp : Int)
          = (a.timestamp : Int) + 86400 * days_in_month_at (a.timestamp : Int))
        (parse_releases_go tier decimals rp k ts inc) := by
  intro k
  induction k with
  | zero =>
    intro ts inc _ _ _
    rw [parse_releases_go]
    exact List.chain'_nil
  | succ n ih =>
    intro ts inc hts hinc hub
    have hC : (0 : Int) < 31 * 86400 := by norm_num
    have ht1 : 0 ≤ ts + inc := add_nonneg hts hinc
    have hmul : (31 * 86400 : Int) ≤ ((n : Int) + 1) * (31 * 86400) :=
      le_mul_of_one_le_left (by norm_num) (by omega)
    have hlt1 : ts + inc < 2 ^ 32 := by
      push_cast at hub
      linarith
    have hinc1 := parse_increment_bounds (ts + inc)
    rw [parse_releases_go]
    apply List.chain'_cons'.2
    refine ⟨?_, ?_⟩
    · intro b hb
      cases n with
      | zero =>
        rw [parse_releases_go] at hb
        simp at hb
      | succ m =>
        rw [parse_releases_go] at hb
        simp only [List.head?_cons, Option.mem_def, Option.some.injEq] at hb
        subst hb
        have ht2 : 0 ≤ ts + inc + parse_increment (ts + inc) := by linarith [hinc1.1]
        have hlt2 : ts + inc + parse_increment (ts + inc) < 2 ^ 32 := by
          have : (2 : Int) * (31 * 86400) ≤ ((m : Int) + 1 + 1) * (31 * 86400) := by
            have h1 : (2 : Int) ≤ (m : Int) + 1 + 1 := by omega
            exact mul_le_mul_of_nonneg_right h1 (by norm_num)
          push_cast at hub
          linarith [hinc1.2]
        simp only [VestingInfo.mk.injEq]
        rw [Int.emod_eq_of_lt ht1 hlt1, Int.toNat_of_nonneg ht1,
          Int.emod_eq_of_lt ht2 hlt2, Int.toNat_of_nonneg ht2]
        rw [show (86400 : Int) * days_in_month_at (ts + inc) = parse_increment (ts + inc)
          from by rw [parse_increment, D]]
    · apply ih
      · exact ht1
      · linarith [hinc1.1]
      · push_cast at hub ⊢
        linarith [hinc1.2]

/-- Claim C4: in every generated schedule whose raw timeline fits in a
`u32` (start at or after the epoch, end before 2106), release timestamps
are non-decreasing, and each consecutive gap equals 86400 seconds times the
day count of the month of the previous release's date — `days_in_month_at`
computing 28/29/30/31-day months from the civil date, with a 29-day
February exactly in `is_leap` years (divisible by 4 and (not divisible by
100, or divisible by 400)). -/
theorem C4_calendar_gaps (tier : TierInfo) (decimals : Nat) (start : Int)
    (h0 : 0 ≤ start)
    (hub : start + Y + (f64_as_u64 tier.release_periods : Int) * (31 * 86400) < 2 ^ 32) :
    List.Chain' (fun a b => (b.timestamp : Int)
        = (a.timestamp : Int) + 86400 * days_in_month_at (a.timestamp : Int))
      (parse_releases decimals start tier)
    ∧ List.Chain' (fun a b => a.timestamp ≤ b.timestamp)
      (parse_releases decimals start tier) := by
  have hgap : List.Chain' (fun a b => (b.timestamp : Int)
      = (a.timestamp : Int) + 86400 * days_in_month_at (a.timestamp : Int))
      (parse_releases decimals start tier) := by
    rw [parse_releases]
    apply parse_releases_go_chain
    · exact h0
    · split_ifs
      · rw [Y]; norm_num
      · norm_num
    · have hY : (0 : Int) ≤ Y := by rw [Y]; norm_num
      have : (if tier.group = Group.Team then Y else 0) ≤ Y := by
        split_ifs
        · exact le_refl Y
        · exact hY
      linarith
  refine ⟨hgap, hgap.imp ?_⟩
  intro a b hab
  have hd := parse_increment_bounds (a.timestamp : Int)
  rw [show (86400 : Int) * days_in_month_at (a.timestamp : Int)
    = parse_increment (a.timestamp : Int) from by rw [parse_increment, D]] at hab
  have : (a.timestamp : Int) ≤ (b.timestamp : Int) := by linarith [hd.1]
  exact_mod_cast this

/-- Witness for C4: a three-period Private schedule from the epoch. -/
theorem C4_witness :
    (0 : Int) ≤ 0
    ∧ (0 : Int) + Y + (f64_as_u64 ((3 : Nat) : Rat) : Int) * (31 * 86400) < 2 ^ 32
    ∧ (List.Chain' (fun a b => (b.timestamp : Int)
          = (a.timestamp : Int) + 86400 * days_in_month_at (a.timestamp : Int))
        (parse_releases 0 0 ⟨Group.Private, ((3 : Nat) : Rat), 300⟩)
      ∧ List.Chain' (fun a b => a.timestamp ≤ b.timestamp)
        (parse_releases 0 0 ⟨Group.Private, ((3 : Nat) : Rat), 300⟩)) :=
  ⟨by decide, by decide,
   C4_calendar_gaps ⟨Group.Private, ((3 : Nat) : Rat), 300⟩ 0 0 (by decide) (by decide)⟩

/-- Claim C8: a Team-class schedule's first release timestamp equals the
execution (start) timestamp plus exactly one year in seconds (31556952,
the constant `Y`), and every consecutive gap afterwards is the
one-calendar-month increment — under the same `u32`-range condition on the
raw timeline as C4. -/
theorem C8_team_cliff (tier : TierInfo) (decimals : Nat) (start : Int)
    (hteam : tier.group = Group.Team)
    (hrp : f64_as_u64 tier.release_periods ≠ 0)
    (h0 : 0 ≤ start)
    (hub : start + Y + (f64_as_u64 tier.release_periods : Int) * (31 * 86400) < 2 ^ 32) :
    ((parse_releases decimals start tier).head?.map fun e => (e.timestamp : Int))
      = some (start + 31556952)
    ∧ List.Chain' (fun a b => (b.timestamp : Int)
        = (a.timestamp : Int) + 86400 * days_in_month_at (a.timestamp : Int))
      (parse_releases decimals start tier) := by
  have hY : (Y : Int) = 31556952 := rfl
  constructor
  · rw [parse_releases]
    rw [if_pos hteam]
    rw [← hY]
    apply parse_releases_go_head _ _ _ _ _ _ hrp
    · rw [hY]; linarith
    · have hmul : (0 : Int) ≤ (f64_as_u64 tier.release_periods : Int) * (31 * 86400) := by
        positivity
      linarith
  · rw [parse_releases, if_pos hteam]
    apply parse_releases_go_chain
    · exact h0
    · rw [hY]; norm_num
    · linarith

/-- Witness for C8: a two-period Team schedule from the epoch: the first
release stands exactly one year after the start. -/
theorem C8_witness :
    (⟨Group.Team, ((2 : Nat) : Rat), 100⟩ : TierInfo).group = Group.Team
    ∧ f64_as_u64 ((2 : Nat) : Rat) ≠ 0
    ∧ ((parse_releases 0 0 ⟨Group.Team, ((2 : Nat) : Rat), 100⟩).head?.map
        fun e => (e.timestamp : Int)) = some (0 + 31556952) :=
  ⟨rfl, by decide,
   (C8_team_cliff ⟨Group.Team, ((2 : Nat) : Rat), 100⟩ 0 0 rfl (by decide) (by decide)
     (by decide)).1⟩

/-- The rational floor used by the CLI model is the floor of the
`FloorRing` structure on `Rat`. -/
theorem rat_floor_eq (q : Rat) : q.floor = ⌊q⌋ := rfl

/-- Evaluating `ui_amount_to_amount` on a value whose base-unit scaling is a known
non-negative integer below `2 ^ 64` is exactly that integer. -/
theorem ui_amount_eq_int (x : Rat) (d : Nat) (w : Int)
    (hw : x * 10 ^ d = (w : Rat)) (h0 : 0 ≤ w) (hlt : w < 2 ^ 64) :
    ui_amount_to_amount x d = w.toNat := by
  unfold ui_amount_to_amount f64_as_u64
  rw [hw]
  rw [if_neg (by exact_mod_cast not_lt.2 h0)]
  rw [rat_floor_eq, Int.floor_intCast]
  exact min_eq_right (by omega)

/-- The `f64 as usize` cast is the identity on whole numbers below
`2 ^ 64`. -/
theorem f64_as_u64_natCast (n : Nat) (h : n < 2 ^ 64) : f64_as_u64 (n : Rat) = n := by
  unfold f64_as_u64
  rw [if_neg (not_lt.2 (by positivity))]
  rw [rat_floor_eq, Int.floor_natCast]
  simp only [Int.toNat_natCast]
  omega

/-- The claim's `round_to_base_units`: converting `m` base units' worth of
display amount back to base units returns `m`. -/
theorem ui_amount_base (m d : Nat) (hm : m < 2 ^ 64) :
    ui_amount_to_amount ((m : Rat) / 10 ^ d) d = m := by
  have h := ui_amount_eq_int ((m : Rat) / 10 ^ d) d (m : Int)
    (by push_cast; field_simp) (by positivity) (by exact_mod_cast hm)
  simpa using h

theorem total_quantity_cons (r : VestingInfo) (l : List VestingInfo) :
    total_quantity (r :: l) = r.quantity + total_quantity l := rfl

/-- The schedule total is the sum of the per-index quantities; the
timestamps play no role. -/
theorem total_quantity_go (tier : TierInfo) (decimals rp : Nat) :
    ∀ (k : Nat) (ts inc : Int), k ≤ rp →
      total_quantity (parse_releases_go tier decimals rp k ts inc)
        = ((List.range k).map fun j =>
            ui_amount_to_amount (release_quantity_ui tier rp (rp - k + j)) decimals).sum := by
  intro k
  induction k with
  | zero => intro ts inc _; rw [parse_releases_go]; rfl
  | succ n ih =>
    intro ts inc hk
    rw [parse_releases_go, total_quantity_cons, ih _ _ (by omega)]
    simp only [List.range_succ_eq_map, List.map_cons, List.sum_cons, List.map_map,
      Nat.add_zero, Function.comp]
    congr 1
    refine congrArg List.sum (List.map_congr_left fun j hj => ?_).symm
    simp only [Function.comp_apply]
    have hj2 : rp - (n + 1) + Nat.succ j = rp - n + j := by omega
    rw [hj2]

/-- Splitting off the last index of a range sum. -/
theorem sum_range_split_last (f : Nat → Nat) (rp : Nat) (h1 : 1 ≤ rp) :
    ((List.range rp).map f).sum = ((List.range (rp - 1)).map f).sum + f (rp - 1) := by
  obtain ⟨s, rfl⟩ : ∃ s, rp = s + 1 := ⟨rp - 1, by omega⟩
  rw [List.range_succ]
  simp

/-- A range sum whose entries are all equal. -/
theorem sum_range_const (f : Nat → Nat) (c n : Nat) (h : ∀ j, j < n → f j = c) :
    ((List.range n).map f).sum = n * c := by
  rw [List.map_congr_left (fun j hj => h j (List.mem_range.mp hj))]
  simp [List.map_const', mul_comm]

/-- Branch selection: a Team release before the last takes the floored
per-period quantity. -/
theorem rq_team_mid (tier : TierInfo) (rp j : Nat)
    (hg : tier.group = Group.Team) (hj : j < rp - 1) :
    release_quantity_ui tier rp j
      = (((tier.amount * 1) / (tier.release_periods - 0)).floor : Rat) := by
  unfold release_quantity_ui
  rw [if_pos hg]
  unfold parse_quantity
  rw [if_pos hj]

/-- Branch selection: the last Team release absorbs the accumulated
remainder. -/
theorem rq_team_last (tier : TierInfo) (rp : Nat) (hg : tier.group = Group.Team) :
    release_quantity_ui tier rp (rp - 1)
      = ((tier.amount * 1) / (tier.release_periods - 0)
          - ((((tier.amount * 1) / (tier.release_periods - 0)).floor : Int) : Rat))
          * (tier.release_periods - (1 + 0))
        + (tier.amount * 1) / (tier.release_periods - 0) := by
  unfold release_quantity_ui
  rw [if_pos hg]
  unfold parse_quantity
  rw [if_neg (by omega)]

/-- Branch selection: release 0 of a Private schedule is the ten percent
cliff. -/
theorem rq_private_first (tier : TierInfo) (rp : Nat)
    (hg : tier.group = Group.Private) :
    release_quantity_ui tier rp 0 = tier.amount * (1 / 10) := by
  unfold release_quantity_ui
  rw [if_neg (by rw [hg]; exact fun h => Group.noConfusion h), if_pos rfl]

/-- Branch selection: a Private release strictly between the cliff and the
last takes the floored per-period quantity of the ninety percent pool. -/
theorem rq_private_mid (tier : TierInfo) (rp j : Nat)
    (hg : tier.group = Group.Private) (hj0 : j ≠ 0) (hj : j < rp - 1) :
    release_quantity_ui tier rp j
      = (((tier.amount * (9 / 10)) / (tier.release_periods - 1)).floor : Rat) := by
  unfold release_quantity_ui
  rw [if_neg (by rw [hg]; exact fun h => Group.noConfusion h), if_neg hj0]
  unfold parse_quantity
  rw [if_pos hj]

/-- Branch selection: the last Private release absorbs the accumulated
remainder of the ninety percent pool. -/
theorem rq_private_last (tier : TierInfo) (rp : Nat)
    (hg : tier.group = Group.Private) (h2 : 2 ≤ rp) :
    release_quantity_ui tier rp (rp - 1)
      = ((tier.amount * (9 / 10)) / (tier.release_periods - 1)
          - ((((tier.amount * (9 / 10)) / (tier.release_periods - 1)).floor : Int) : Rat))
          * (tier.release_periods - (1 + 1))
        + (tier.amount * (9 / 10)) / (tier.release_periods - 1) := by
  unfold release_quantity_ui
  rw [if_neg (by rw [hg]; exact fun h => Group.noConfusion h), if_neg (by omega)]
  unfold parse_quantity
  rw [if_neg (by omega)]

/-- Exact-arithmetic total for a Team schedule: with the amount worth `m`
base units, the per-release base-unit quantities sum to exactly `m`. -/
theorem team_sum (m rp d : Nat) (start : Int)
    (hrp1 : 1 ≤ rp) (hrp64 : rp < 2 ^ 64) (hm : m < 2 ^ 64) :
    total_quantity (parse_releases d start
        ⟨Group.Team, (rp : Rat), (m : Rat) / 10 ^ d⟩) = m := by
  have hten : (0 : Rat) < 10 ^ d := by positivity
  have hrpQ : (0 : Rat) < (rp : Rat) := by exact_mod_cast hrp1
  have hrw : parse_releases d start ⟨Group.Team, (rp : Rat), (m : Rat) / 10 ^ d⟩
      = parse_releases_go ⟨Group.Team, (rp : Rat), (m : Rat) / 10 ^ d⟩ d rp rp start Y := by
    simp only [parse_releases]
    rw [f64_as_u64_natCast rp hrp64]
    simp
  rw [hrw, total_quantity_go _ _ _ _ _ _ (le_refl rp)]
  simp only [Nat.sub_self, Nat.zero_add]
  rw [sum_range_split_last _ rp hrp1]
  set q : Rat := ((m : Rat) / 10 ^ d * 1) / ((rp : Rat) - 0) with hqdef
  set z : Int := ⌊q⌋ with hzdef
  have hq' : q = ((m : Rat) / 10 ^ d) / (rp : Rat) := by rw [hqdef]; ring
  have hq0 : 0 ≤ q := by rw [hq']; positivity
  have hz0 : 0 ≤ z := by rw [hzdef]; exact Int.floor_nonneg.2 hq0
  have hzq : (z : Rat) ≤ q := by rw [hzdef]; exact Int.floor_le q
  have hqm : (rp : Rat) * (q * 10 ^ d) = (m : Rat) := by
    rw [hq']
    field_simp
    ring
  have hq10 : q * 10 ^ d = (m : Rat) / (rp : Rat) := by
    rw [hq']
    field_simp
    ring
  have hq10m : q * 10 ^ d ≤ (m : Rat) := by
    rw [hq10]
    exact div_le_self (by positivity) (by exact_mod_cast hrp1)
  have hzmQ : (z : Rat) * 10 ^ d ≤ (m : Rat) :=
    le_trans (mul_le_mul_of_nonneg_right hzq hten.le) hq10m
  have hzm : z * 10 ^ d ≤ (m : Int) := by exact_mod_cast hzmQ
  have hz10 : 0 ≤ z * 10 ^ d := by positivity
  have hmid : ∀ j, j < rp - 1 →
      ui_amount_to_amount
        (release_quantity_ui ⟨Group.Team, (rp : Rat), (m : Rat) / 10 ^ d⟩ rp j) d
        = (z * 10 ^ d).toNat := by
    intro j hj
    rw [rq_team_mid _ _ _ rfl hj]
    show ui_amount_to_amount
      (((((m : Rat) / 10 ^ d * 1) / ((rp : Rat) - 0)).floor : Rat)) d = (z * 10 ^ d).toNat
    rw [rat_floor_eq]
    rw [show ⌊((m : Rat) / 10 ^ d * 1) / ((rp : Rat) - 0)⌋ = z from (hzdef.trans (by rw [hqdef])).symm]
    exact ui_amount_eq_int _ d (z * 10 ^ d) (by push_cast; ring) hz10
      (lt_of_le_of_lt hzm (by exact_mod_cast hm))
  have hwl0 : 0 ≤ (m : Int) - ((rp : Int) - 1) * (z * 10 ^ d) := by
    have h1 : ((rp : Rat) - 1) * ((z : Rat) * 10 ^ d) ≤ (rp : Rat) * (q * 10 ^ d) := by
      apply mul_le_mul (by linarith) (mul_le_mul_of_nonneg_right hzq hten.le)
        (by positivity) (by positivity)
    rw [hqm] at h1
    have h2 : ((rp : Int) - 1) * (z * 10 ^ d) ≤ (m : Int) := by exact_mod_cast h1
    linarith
  have hlast : ui_amount_to_amount
      (release_quantity_ui ⟨Group.Team, (rp : Rat), (m : Rat) / 10 ^ d⟩ rp (rp - 1)) d
        = ((m : Int) - ((rp : Int) - 1) * (z * 10 ^ d)).toNat := by
    rw [rq_team_last _ _ rfl]
    show ui_amount_to_amount
      ((((m : Rat) / 10 ^ d * 1) / ((rp : Rat) - 0)
          - ((((((m : Rat) / 10 ^ d * 1) / ((rp : Rat) - 0)).floor : Int)) : Rat))
          * ((rp : Rat) - (1 + 0))
        + ((m : Rat) / 10 ^ d * 1) / ((rp : Rat) - 0)) d = _
    rw [rat_floor_eq]
    rw [show ⌊((m : Rat) / 10 ^ d * 1) / ((rp : Rat) - 0)⌋ = z from (hzdef.trans (by rw [hqdef])).symm]
    rw [show ((m : Rat) / 10 ^ d * 1) / ((rp : Rat) - 0) = q from hqdef.symm]
    apply ui_amount_eq_int
    · push_cast
      linear_combination hqm
    · exact hwl0
    · have hp : 0 ≤ ((rp : Int) - 1) * (z * 10 ^ d) :=
        mul_nonneg (by omega) hz10
      have hmZ : (m : Int) < 2 ^ 64 := by exact_mod_cast hm
      linarith
  rw [sum_range_const _ _ _ hmid, hlast]
  have hkey : (((rp - 1) * (z * 10 ^ d).toNat
      + ((m : Int) - ((rp : Int) - 1) * (z * 10 ^ d)).toNat : Nat) : Int) = (m : Int) := by
    push_cast [Int.toNat_of_nonneg hz10, Int.toNat_of_nonneg hwl0, Nat.cast_sub hrp1]
    ring
  exact_mod_cast hkey

/-- A range sum whose entries past index 0 are all equal. -/
theorem sum_range_head_const (f : Nat → Nat) (c n : Nat) (hn : 1 ≤ n)
    (h : ∀ j, 1 ≤ j → j < n → f j = c) :
    ((List.range n).map f).sum = f 0 + (n - 1) * c := by
  obtain ⟨u, rfl⟩ : ∃ u, n = u + 1 := ⟨n - 1, by omega⟩
  rw [List.range_succ_eq_map, List.map_cons, List.sum_cons, List.map_map]
  congr 1
  rw [show u + 1 - 1 = u from rfl]
  exact sum_range_const (f ∘ Nat.succ) c u (fun j hj => h (j + 1) (by omega) (by omega))

/-- Exact-arithmetic total for a Private schedule with at least two periods
and an amount worth a multiple of ten base units: the per-release base-unit
quantities sum to exactly `m`. -/
theorem private_sum (m rp d : Nat) (start : Int)
    (h2 : 2 ≤ rp) (hdvd : 10 ∣ m) (hrp64 : rp < 2 ^ 64) (hm : m < 2 ^ 64) :
    total_quantity (parse_releases d start
        ⟨Group.Private, (rp : Rat), (m : Rat) / 10 ^ d⟩) = m := by
  obtain ⟨mt, rfl⟩ := hdvd
  have hten : (0 : Rat) < 10 ^ d := by positivity
  have hrp1Q : (1 : Rat) ≤ (rp : Rat) - 1 := by
    have : (2 : Rat) ≤ (rp : Rat) := by exact_mod_cast h2
    linarith
  have hrw : parse_releases d start
      ⟨Group.Private, (rp : Rat), ((10 * mt : Nat) : Rat) / 10 ^ d⟩
      = parse_releases_go ⟨Group.Private, (rp : Rat), ((10 * mt : Nat) : Rat) / 10 ^ d⟩
          d rp rp start 0 := by
    simp only [parse_releases]
    rw [f64_as_u64_natCast rp hrp64]
    simp
  rw [hrw, total_quantity_go _ _ _ _ _ _ (le_refl rp)]
  simp only [Nat.sub_self, Nat.zero_add]
  rw [sum_range_split_last _ rp (by omega)]
  set q : Rat := (((10 * mt : Nat) : Rat) / 10 ^ d * (9 / 10)) / ((rp : Rat) - 1) with hqdef
  set z : Int := ⌊q⌋ with hzdef
  have hq0 : 0 ≤ q := by rw [hqdef]; positivity
  have hz0 : 0 ≤ z := by rw [hzdef]; exact Int.floor_nonneg.2 hq0
  have hzq : (z : Rat) ≤ q := by rw [hzdef]; exact Int.floor_le q
  have hqm : ((rp : Rat) - 1) * (q * 10 ^ d) = 9 * (mt : Rat) := by
    rw [hqdef]
    push_cast
    field_simp
    ring
  have hq10 : q * 10 ^ d = 9 * (mt : Rat) / ((rp : Rat) - 1) := by
    rw [hqdef]
    push_cast
    field_simp
    ring
  have hq10m : q * 10 ^ d ≤ 9 * (mt : Rat) := by
    rw [hq10]
    exact div_le_self (by positivity) hrp1Q
  have hzmQ : (z : Rat) * 10 ^ d ≤ 9 * (mt : Rat) :=
    le_trans (mul_le_mul_of_nonneg_right hzq hten.le) hq10m
  have hzm : z * 10 ^ d ≤ 9 * (mt : Int) := by exact_mod_cast hzmQ
  have hz10 : 0 ≤ z * 10 ^ d := by positivity
  have hmt64 : 9 * mt < 2 ^ 64 := by omega
  have hfirst : ui_amount_to_amount
      (release_quantity_ui ⟨Group.Private, (rp : Rat), ((10 * mt : Nat) : Rat) / 10 ^ d⟩ rp 0) d
      = mt := by
    rw [rq_private_first _ _ rfl]
    show ui_amount_to_amount (((10 * mt : Nat) : Rat) / 10 ^ d * (1 / 10)) d = mt
    have h := ui_amount_eq_int (((10 * mt : Nat) : Rat) / 10 ^ d * (1 / 10)) d (mt : Int)
      (by push_cast; field_simp; ring) (by positivity)
      (by exact_mod_cast (by omega : mt < 2 ^ 64))
    simpa using h
  have hmid : ∀ j, 1 ≤ j → j < rp - 1 →
      ui_amount_to_amount
        (release_quantity_ui ⟨Group.Private, (rp : Rat), ((10 * mt : Nat) : Rat) / 10 ^ d⟩ rp j) d
        = (z * 10 ^ d).toNat := by
    intro j hj1 hj2
    rw [rq_private_mid _ _ _ rfl (by omega) hj2]
    show ui_amount_to_amount
      ((((((10 * mt : Nat) : Rat) / 10 ^ d * (9 / 10)) / ((rp : Rat) - 1)).floor : Rat)) d
      = (z * 10 ^ d).toNat
    rw [rat_floor_eq]
    rw [show ⌊(((10 * mt : Nat) : Rat) / 10 ^ d * (9 / 10)) / ((rp : Rat) - 1)⌋ = z
      from (hzdef.trans (by rw [hqdef])).symm]
    exact ui_amount_eq_int _ d (z * 10 ^ d) (by push_cast; ring) hz10
      (lt_of_le_of_lt hzm (by exact_mod_cast hmt64))
  have hwl0 : 0 ≤ 9 * (mt : Int) - ((rp : Int) - 2) * (z * 10 ^ d) := by
    have h1 : ((rp : Rat) - 2) * ((z : Rat) * 10 ^ d) ≤ ((rp : Rat) - 1) * (q * 10 ^ d) := by
      apply mul_le_mul (by linarith) (mul_le_mul_of_nonneg_right hzq hten.le)
        (by positivity) (by linarith)
    rw [hqm] at h1
    have hle : ((rp : Int) - 2) * (z * 10 ^ d) ≤ 9 * (mt : Int) := by exact_mod_cast h1
    linarith
  have hlast : ui_amount_to_amount
      (release_quantity_ui ⟨Group.Private, (rp : Rat), ((10 * mt : Nat) : Rat) / 10 ^ d⟩
        rp (rp - 1)) d
      = (9 * (mt : Int) - ((rp : Int) - 2) * (z * 10 ^ d)).toNat := by
    rw [rq_private_last _ _ rfl h2]
    show ui_amount_to_amount
      (((((10 * mt : Nat) : Rat) / 10 ^ d * (9 / 10)) / ((rp : Rat) - 1)
          - (((((((10 * mt : Nat) : Rat) / 10 ^ d * (9 / 10)) / ((rp : Rat) - 1)).floor : Int)) : Rat))
          * ((rp : Rat) - (1 + 1))
        + (((10 * mt : Nat) : Rat) / 10 ^ d * (9 / 10)) / ((rp : Rat) - 1)) d = _
    rw [rat_floor_eq]
    rw [show ⌊(((10 * mt : Nat) : Rat) / 10 ^ d * (9 / 10)) / ((rp : Rat) - 1)⌋ = z
      from (hzdef.trans (by rw [hqdef])).symm]
    rw [show (((10 * mt : Nat) : Rat) / 10 ^ d * (9 / 10)) / ((rp : Rat) - 1) = q
      from hqdef.symm]
    apply ui_amount_eq_int
    · push_cast
      linear_combination hqm
    · exact hwl0
    · have hp : 0 ≤ ((rp : Int) - 2) * (z * 10 ^ d) := mul_nonneg (by omega) hz10
      have hmZ : (9 : Int) * (mt : Int) < 2 ^ 64 := by exact_mod_cast hmt64
      linarith
  rw [sum_range_head_const _ ((z * 10 ^ d).toNat) (rp - 1) (by omega) hmid, hfirst, hlast]
  have hr2 : rp - 1 - 1 = rp - 2 := by omega
  rw [hr2]
  have hkey : ((mt + (rp - 2) * (z * 10 ^ d).toNat
      + (9 * (mt : Int) - ((rp : Int) - 2) * (z * 10 ^ d)).toNat : Nat) : Int)
      = ((10 * mt : Nat) : Int) := by
    push_cast [Int.toNat_of_nonneg hz10, Int.toNat_of_nonneg hwl0,
      Nat.cast_sub (by omega : 2 ≤ rp)]
    ring
  exact_mod_cast hkey

/-- Claim C1 (amended): in the exact-arithmetic model of the f64
computation, a Team schedule of any period count `rp ≥ 1` over an amount
worth `m` base units sums exactly to `round_to_base_units(amount)` (that
is, `ui_amount_to_amount` of the amount); a Private schedule does so for
`rp ≥ 2` whenever the amount is worth a multiple of ten base units (so the
ten percent cliff release is integral in base units). For Private
schedules with a single period the claim fails — only the ten percent
cliff is ever scheduled — and fractional-base-unit amounts lose units to
per-release truncation. -/
theorem C1_schedule_sum (m rp d : Nat) (start : Int)
    (hrp1 : 1 ≤ rp) (hrp64 : rp < 2 ^ 64) (hm : m < 2 ^ 64) :
    total_quantity (parse_releases d start
        ⟨Group.Team, (rp : Rat), (m : Rat) / 10 ^ d⟩)
      = ui_amount_to_amount ((m : Rat) / 10 ^ d) d
    ∧ (2 ≤ rp → 10 ∣ m →
      total_quantity (parse_releases d start
          ⟨Group.Private, (rp : Rat), (m : Rat) / 10 ^ d⟩)
        = ui_amount_to_amount ((m : Rat) / 10 ^ d) d) := by
  rw [ui_amount_base m d hm]
  exact ⟨team_sum m rp d start hrp1 hrp64 hm,
    fun h2 hdvd => private_sum m rp d start h2 hdvd hrp64 hm⟩

/-- Counterexample for C1 as stated: with zero mint decimals, a Private
schedule over one period for amount 10 releases only 1 base unit (the ten
percent cliff) instead of 10; and over two periods for amount 15 the
per-release truncation to base units yields 1 + 13 = 14 instead of 15. At
these inputs every f64 operation of the source is exact (each intermediate
product rounds to the value the rationals give), so the exact model
coincides with the floating-point computation. -/
theorem C1_counterexample :
    total_quantity (parse_releases 0 0 ⟨Group.Private, 1, 10⟩)
        ≠ ui_amount_to_amount 10 0
    ∧ total_quantity (parse_releases 0 0 ⟨Group.Private, 2, 15⟩)
        ≠ ui_amount_to_amount 15 0 := by
  constructor <;> decide

/-- Witness for C1 (amended): a four-period schedule worth 100 base units
at one mint decimal sums exactly for both investor classes. -/
theorem C1_witness :
    ((1 : Nat) ≤ 4 ∧ (4 : Nat) < 2 ^ 64 ∧ (100 : Nat) < 2 ^ 64 ∧ (2 : Nat) ≤ 4 ∧ 10 ∣ 100)
    ∧ total_quantity (parse_releases 1 0
          ⟨Group.Team, ((4 : Nat) : Rat), ((100 : Nat) : Rat) / 10 ^ 1⟩)
        = ui_amount_to_amount (((100 : Nat) : Rat) / 10 ^ 1) 1
    ∧ total_quantity (parse_releases 1 0
          ⟨Group.Private, ((4 : Nat) : Rat), ((100 : Nat) : Rat) / 10 ^ 1⟩)
        = ui_amount_to_amount (((100 : Nat) : Rat) / 10 ^ 1) 1 :=
  ⟨⟨by decide, by decide, by decide, by decide, by decide⟩,
   (C1_schedule_sum 100 4 1 0 (by decide) (by decide) (by decide)).1,
   (C1_schedule_sum 100 4 1 0 (by decide) (by decide) (by decide)).2 (by decide) (by decide)⟩

/-- Witness for C10: recorded recipient 4, supplied recipient 5. -/
theorem C10_witness :
    (4 : Nat) ≠ 5
    ∧ process_unlock_tokens
        { program_id := 7, pda := some 2, vesting_key := 2, vesting_owner := 7,
          vesting_data := ⟨⟨true, 3, 4⟩, [⟨0, 1⟩]⟩, vault := ⟨2, 10, none, none⟩,
          recipient_key := 5, spl_token_program := spl_token_id, clock := 50 }
        = .error ProgramError.InvalidArgument :=
  ⟨by decide, C10_unlock_wrong_recipient _ rfl rfl rfl (by decide)⟩

end Vesting
